import Mathlib

/-!
Verification development for the yocto builder module (`moulin/builders/yocto.py`).

The Python source is shallowly embedded below: pure functions become Lean
functions, the incremental-graph writer becomes an explicit list of emitted
build edges threaded through `gen_build`, and fallible code returns
`Except PyErr`.  YAML nodes (from the external YAML library) are embedded as
the inductive `YNode`; Python runtime errors that the source can raise
(IndexError on out-of-range subscripts, AttributeError on `.value` of a
non-node, TypeError on joining non-strings) are explicit `PyErr` values.
Helpers of the repository that are not part of the analysed source
(`moulin.yaml_helpers`, `moulin.utils.create_stamp_name`) are modelled from
the specification; each such definition says so in its doc comment.
-/

/-- Python exceptions the embedded code can raise.  `yamlProcessingError`
embeds `moulin.yaml_helpers.YAMLProcessingError` (a message plus the
offending node's source mark); the others embed the corresponding Python
runtime errors. -/
inductive PyErr where
  | yamlProcessingError (msg : String) (mark : Nat)
  | missingFieldError (field : String)
  | indexError
  | attributeError
  | typeError
deriving DecidableEq

/-- A YAML node as used by the source: a scalar (its `value` is a string),
a sequence (its `value` is a list of nodes) or a mapping (its `value` is a
list of key/value node pairs).  The `mark` component embeds the node's
`start_mark` used for error reporting. -/
inductive YNode where
  | scalar (value : String) (mark : Nat)
  | seq (value : List YNode) (mark : Nat)
  | map (value : List (YNode × YNode)) (mark : Nat)

/-- The possible runtime types of `node.value` in the source: a string for
scalars, a node list for sequences, a pair list for mappings. -/
inductive YVal where
  | s (v : String)
  | l (v : List YNode)
  | m (v : List (YNode × YNode))

/-- Embeds the Python attribute access `node.value`. -/
def YNode.val : YNode → YVal
  | .scalar s _ => .s s
  | .seq l _ => .l l
  | .map m _ => .m m

/-- Embeds `isinstance(node, SequenceNode)`. -/
def YNode.isSeq : YNode → Bool
  | .seq _ _ => true
  | _ => false

/-- Embeds the attribute access `node.start_mark`. -/
def YNode.mark : YNode → Nat
  | .scalar _ m => m
  | .seq _ m => m
  | .map _ m => m

/-- The string value of a scalar node (`node.value` where the source expects
a string); non-scalar nodes give the empty string, but call sites that would
be a Python runtime type error use `strValE` instead. -/
def YNode.strVal : YNode → String
  | .scalar s _ => s
  | _ => ""

/-- Embeds `node.value` at call sites where the source goes on to use the
result as a `str`: joining or concatenating a non-string raises TypeError. -/
def strValE : YNode → Except PyErr String
  | .scalar s _ => .ok s
  | _ => .error .typeError

/-- Embeds the Python expression `x.value[i].value`: subscripting a scalar's
string value yields a character, whose `.value` raises AttributeError (or
IndexError when the index is out of range); subscripting a mapping's pair
list yields a tuple, whose `.value` likewise raises AttributeError; on a
sequence it selects the i-th child node's `value` (IndexError when out of
range). -/
def pyIdxVal (x : YNode) (i : Nat) : Except PyErr YVal :=
  match x with
  | .scalar s _ => if i < s.length then .error .attributeError else .error .indexError
  | .seq l _ =>
    match l.get? i with
    | some n => .ok n.val
    | none => .error .indexError
  | .map m _ => if i < m.length then .error .attributeError else .error .indexError

/-- Embeds the tuple `(x.value[0].value, x.value[1].value)` built by
`_flatten_yocto_conf`, evaluated left to right. -/
def kvOf (x : YNode) : Except PyErr (YVal × YVal) :=
  match pyIdxVal x 0 with
  | .error e => .error e
  | .ok a =>
    match pyIdxVal x 1 with
    | .error e => .error e
    | .ok b => .ok (a, b)

/-- Embeds a Python list comprehension `[f(x) for x in l]`: elements are
evaluated left to right and the first raised error aborts the whole
comprehension. -/
def mapME (f : YNode → Except PyErr α) : List YNode → Except PyErr (List α)
  | [] => .ok []
  | x :: rest =>
    match f x with
    | .error e => .error e
    | .ok a =>
      match mapME f rest with
      | .error e => .error e
      | .ok tail => .ok (a :: tail)

/-- Embeds one iteration of the loop body of `_flatten_yocto_conf`: the
isinstance check on the entry, the subscript `entry.value[0]` in the branch
condition (IndexError on an empty entry), and either the list comprehension
over `entry.value` (group case) or the single pair (singleton case). -/
def flattenOne (entry : YNode) : Except PyErr (List (YVal × YVal)) :=
  match entry with
  | .seq [] _ => .error .indexError
  | .seq (first :: rest) m =>
    if first.isSeq then mapME kvOf (first :: rest)
    else
      match kvOf (.seq (first :: rest) m) with
      | .error e => .error e
      | .ok p => .ok [p]
  | e => .error (.yamlProcessingError "Exptected array on 'conf' node" e.mark)

/-- Embeds `_flatten_yocto_conf`, iterating over `conf.value` (the argument
list) and accumulating `result` in order; the first raised error aborts the
whole call with no result. -/
def _flatten_yocto_conf (conf : List YNode) : Except PyErr (List (YVal × YVal)) :=
  match conf with
  | [] => .ok []
  | e :: rest =>
    match flattenOne e with
    | .error err => .error err
    | .ok head =>
      match _flatten_yocto_conf rest with
      | .error err => .error err
      | .ok tail => .ok (head ++ tail)

/-- A well-formed (key, value) pair node, as the spec's data model describes
directive entries: a sequence node with at least two elements. -/
def wfPair (x : YNode) : Bool :=
  match x with
  | .seq (_ :: _ :: _) _ => true
  | _ => false

/-- A well-formed directive-group entry (spec section 4.1): either a single
pair (a sequence of at least two elements whose first element is not itself
a sequence) or a group (a sequence whose first element is a sequence and all
of whose elements are well-formed pairs). -/
def wfEntry (e : YNode) : Bool :=
  match e with
  | .seq (first :: rest) _ =>
    if first.isSeq then (first :: rest).all wfPair
    else !rest.isEmpty
  | _ => false

/-- The leaf pairs contributed by one inner group member, following the
spec's words: a pair node contributes `(inner[0], inner[1])`. -/
def pairOfSpec (x : YNode) : List (YVal × YVal) :=
  match x with
  | .seq (a :: b :: _) _ => [(a.val, b.val)]
  | _ => []

/-- Follows the spec's words (section 4.1): the leaf pairs contributed by
one directive-group entry — a group entry (first element itself a sequence)
contributes each inner pair `(inner[0], inner[1])` in order, any other
sequence entry contributes the single pair `(entry[0], entry[1])`. -/
def flattenSpecEntry (e : YNode) : List (YVal × YVal) :=
  match e with
  | .seq (first :: rest) _ =>
    if first.isSeq then ((first :: rest).map pairOfSpec).flatten
    else pairOfSpec e
  | _ => []

/-- Follows the spec's words (section 4.1): walk the directive-group
structure and emit leaf pairs in encounter order, preserving relative order
across groups and singletons. -/
def flatten_spec (conf : List YNode) : List (YVal × YVal) :=
  conf.foldr (fun e acc => flattenSpecEntry e ++ acc) []

theorem kvOf_wfPair (a b : YNode) (t : List YNode) (m : Nat) :
    kvOf (.seq (a :: b :: t) m) = .ok (a.val, b.val) := rfl

theorem mapME_kvOf_wf (l : List YNode) (h : l.all wfPair = true) :
    mapME kvOf l = .ok (l.map pairOfSpec).flatten := by
  induction l with
  | nil => rfl
  | cons x t ih =>
    simp only [List.all_cons, Bool.and_eq_true] at h
    obtain ⟨hx, ht⟩ := h
    match x, hx with
    | .seq (a :: b :: u) m, _ =>
      simp only [mapME, kvOf_wfPair, ih ht, List.map, pairOfSpec, List.flatten]
      rfl

theorem flattenOne_wf (e : YNode) (h : wfEntry e = true) :
    flattenOne e = .ok (flattenSpecEntry e) := by
  match e, h with
  | .seq (first :: rest) m, h =>
    simp only [wfEntry] at h
    by_cases hf : first.isSeq = true
    · simp only [hf, if_true] at h
      simp only [flattenOne, flattenSpecEntry, hf, if_true, mapME_kvOf_wf _ h]
    · simp only [hf, if_false] at h
      simp only [Bool.not_eq_true] at hf
      simp only [flattenOne, flattenSpecEntry, hf, Bool.false_eq_true, if_false]
      match rest, h with
      | b :: u, _ =>
        simp only [kvOf_wfPair, pairOfSpec]

theorem flatten_wf_ok (conf : List YNode) (h : conf.all wfEntry = true) :
    _flatten_yocto_conf conf = .ok (flatten_spec conf) := by
  induction conf with
  | nil => rfl
  | cons e rest ih =>
    simp only [List.all_cons, Bool.and_eq_true] at h
    obtain ⟨he, hrest⟩ := h
    simp only [_flatten_yocto_conf, flattenOne_wf e he, ih hrest, flatten_spec, List.foldr]

/-- The conf-entry structure of the spec's Scenario B:
`[["FOO","1"],[["BAR","2"],["BAZ","3"]]]`. -/
def confScenarioB : List YNode :=
  [.seq [.scalar "FOO" 0, .scalar "1" 1] 2,
   .seq [.seq [.scalar "BAR" 3, .scalar "2" 4] 5,
         .seq [.scalar "BAZ" 6, .scalar "3" 7] 8] 9]

/-- C2: for every sequence of well-formed directive-group entries,
`_flatten_yocto_conf` returns exactly the flat ordered list obtained by
walking the structure and emitting leaves in encounter order (groups
contribute their inner pairs in order, singletons their own pair, relative
order preserved, no duplicate dropped); in particular Scenario B's input
flattens to `[("FOO","1"),("BAR","2"),("BAZ","3")]`. -/
theorem c2_flatten_walk_order :
    (∀ conf : List YNode, conf.all wfEntry = true →
      _flatten_yocto_conf conf = .ok (flatten_spec conf)) ∧
    _flatten_yocto_conf confScenarioB =
      .ok [(.s "FOO", .s "1"), (.s "BAR", .s "2"), (.s "BAZ", .s "3")] :=
  ⟨flatten_wf_ok, rfl⟩

/-- Witness for C2: the universally quantified part applied to the concrete
Scenario B input, its well-formedness hypothesis discharged by evaluation. -/
theorem c2_flatten_walk_order_witness :
    confScenarioB.all wfEntry = true ∧
    _flatten_yocto_conf confScenarioB = .ok (flatten_spec confScenarioB) :=
  ⟨rfl, c2_flatten_walk_order.1 confScenarioB rfl⟩

/-- C8: when the entries before it all flatten successfully, a top-level
entry that is not a sequence makes `_flatten_yocto_conf` fail with the
structural `YAMLProcessingError` carrying that entry's source position, and
no flattened result is produced. -/
theorem c8_scalar_entry_structural_error (pre : List YNode) (entry : YNode)
    (post : List YNode) (l0 : List (YVal × YVal))
    (hpre : _flatten_yocto_conf pre = .ok l0) (hent : entry.isSeq = false) :
    _flatten_yocto_conf (pre ++ entry :: post) =
      .error (.yamlProcessingError "Exptected array on 'conf' node" entry.mark) := by
  induction pre generalizing l0 with
  | nil =>
    match entry, hent with
    | .scalar s m, _ => rfl
    | .map mv m, _ => rfl
  | cons p t ih =>
    simp only [_flatten_yocto_conf, List.cons_append] at hpre ⊢
    cases hp : flattenOne p with
    | error err => simp [hp] at hpre
    | ok hd =>
      cases ht : _flatten_yocto_conf t with
      | error err => simp [hp, ht] at hpre
      | ok tl => simp only [hp, List.append_eq, ih tl ht]

/-- Witness for C8: applied at a concrete input whose first entry is a valid
pair and whose second entry is a bare scalar at source position 42. -/
theorem c8_scalar_entry_structural_error_witness :
    _flatten_yocto_conf [.seq [.scalar "A" 0, .scalar "B" 1] 2] = .ok [(.s "A", .s "B")] ∧
    _flatten_yocto_conf
        [.seq [.scalar "A" 0, .scalar "B" 1] 2, .scalar "oops" 42, .seq [] 5] =
      .error (.yamlProcessingError "Exptected array on 'conf' node" 42) :=
  ⟨rfl, c8_scalar_entry_structural_error
    [.seq [.scalar "A" 0, .scalar "B" 1] 2] (.scalar "oops" 42) [.seq [] 5]
    [(.s "A", .s "B")] rfl rfl⟩

/-- C10: flattening is partial even when every top-level entry is a
sequence: an entry with an empty element list, a singleton entry with fewer
than two elements, and a group whose inner member has fewer than two
elements each raise a bare `IndexError` (not a structural
`YAMLProcessingError` with a source position); and flattening is total on
inputs where every entry and every inner group member is a sequence with at
least two elements. -/
theorem c10_flatten_partiality :
    _flatten_yocto_conf [.seq [] 7] = .error .indexError ∧
    _flatten_yocto_conf [.seq [.scalar "A" 3] 4] = .error .indexError ∧
    _flatten_yocto_conf
        [.seq [.seq [.scalar "K" 1] 2, .seq [.scalar "A" 3, .scalar "B" 4] 5] 6] =
      .error .indexError ∧
    (∀ conf : List YNode, conf.all wfEntry = true →
      ∃ res, _flatten_yocto_conf conf = .ok res) :=
  ⟨rfl, rfl, rfl, fun conf h => ⟨flatten_spec conf, flatten_wf_ok conf h⟩⟩

/-- Witness for C10: the totality part applied to a concrete well-formed
input. -/
theorem c10_flatten_partiality_witness :
    ([.seq [.scalar "X" 0, .scalar "Y" 1] 2] : List YNode).all wfEntry = true ∧
    ∃ res, _flatten_yocto_conf [.seq [.scalar "X" 0, .scalar "Y" 1] 2] = .ok res :=
  ⟨rfl, c10_flatten_partiality.2.2.2 [.seq [.scalar "X" 0, .scalar "Y" 1] 2] rfl⟩

/-- The single-quote character, written by code point to keep the sources
readable as data. -/
def sqc : Char := Char.ofNat 39

/-- Embeds the Python expression `s.replace("$", "$$")` used on directive
keys and values before shell quoting (the build tool treats `$` as its
escape character, so a literal `$` must be doubled). -/
def dollarEscape : List Char → List Char
  | [] => []
  | c :: rest =>
    if c = '$' then '$' :: '$' :: dollarEscape rest else c :: dollarEscape rest

/-- Embeds the replacement `s.replace("'", "'\"'\"'")` performed inside
`shlex.quote`: every single quote becomes quote, double quote, quote,
double quote, quote. -/
def sqEscape : List Char → List Char
  | [] => []
  | c :: rest =>
    if c = sqc then sqc :: '"' :: sqc :: '"' :: sqc :: sqEscape rest
    else c :: sqEscape rest

/-- The characters Python's `shlex.quote` considers safe: ASCII word
characters plus at-sign, percent, plus, equals, colon, comma, dot, slash
and dash (the complement of its `_find_unsafe` ASCII regex). -/
def shlexSafeChar (c : Char) : Bool :=
  c.isAlpha || c.isDigit || c = '_' || c = '@' || c = '%' || c = '+' || c = '=' ||
    c = ':' || c = ',' || c = '.' || c = '/' || c = '-'

/-- Embeds Python's `shlex.quote`: the empty string becomes two quotes, a
string of safe characters is returned unchanged, anything else is wrapped in
single quotes with inner single quotes escaped. -/
def shlex_quote (s : List Char) : List Char :=
  if s = [] then [sqc, sqc]
  else if s.all shlexSafeChar then s
  else sqc :: (sqEscape s ++ [sqc])

/-- Embeds the line construction of `gen_build`:
`shlex.quote(f'{k.replace("$", "$$")} = "{v.replace("$", "$$")}"')` —
dollars doubled first, then the whole assignment quoted as one shell
token. -/
def materialize_line (k v : List Char) : List Char :=
  shlex_quote (dollarEscape k ++ ' ' :: '=' :: ' ' :: '"' :: (dollarEscape v ++ ['"']))

/-- Models the build tool's variable expansion on a declaration line: the
escape `$$` expands to a literal `$`; a bare `$` would be a variable or
line-continuation escape needing an environment, so it is returned as
`none` (lines produced by the materialization never contain one). -/
def ninjaExpand : List Char → Option (List Char)
  | [] => some []
  | [c] => if c = '$' then none else some [c]
  | c :: d :: rest =>
    if c = '$' then
      if d = '$' then (ninjaExpand rest).map (fun r => '$' :: r) else none
    else (ninjaExpand (d :: rest)).map (fun r => c :: r)

mutual
/-- Models POSIX shell unquoting of one word, outside any quotes: a single
quote opens a single-quoted span, a double quote a double-quoted span, any
other character stands for itself (backslash escapes and word splitting are
not needed for lines produced by `shlex.quote`). -/
def shOutside : List Char → Option (List Char)
  | [] => some []
  | c :: rest =>
    if c = sqc then shSingle rest
    else if c = '"' then shDouble rest
    else (shOutside rest).map (fun r => c :: r)

/-- Models POSIX shell unquoting inside a single-quoted span; an unclosed
quote is an error. -/
def shSingle : List Char → Option (List Char)
  | [] => none
  | c :: rest =>
    if c = sqc then shOutside rest else (shSingle rest).map (fun r => c :: r)

/-- Models POSIX shell unquoting inside a double-quoted span; an unclosed
quote is an error. -/
def shDouble : List Char → Option (List Char)
  | [] => none
  | c :: rest =>
    if c = '"' then shOutside rest else (shDouble rest).map (fun r => c :: r)
end

theorem dollarEscape_append (a b : List Char) :
    dollarEscape (a ++ b) = dollarEscape a ++ dollarEscape b := by
  induction a with
  | nil => rfl
  | cons c t ih =>
    by_cases hc : c = '$' <;> simp [dollarEscape, hc, ih]

theorem sqEscape_dollarEscape_comm (s : List Char) :
    sqEscape (dollarEscape s) = dollarEscape (sqEscape s) := by
  induction s with
  | nil => rfl
  | cons c t ih =>
    by_cases hc : c = '$'
    · subst hc
      have hne : ¬ ('$' = sqc) := by decide
      simp [dollarEscape, sqEscape, hne, ih]
    · by_cases hs : c = sqc
      · subst hs
        have hne : ¬ (sqc = '$') := by decide
        have hnq : ¬ ('"' = '$') := by decide
        simp [dollarEscape, sqEscape, hne, hnq, ih]
      · simp [dollarEscape, sqEscape, hc, hs, ih]

theorem ninjaExpand_cons_ne (c : Char) (rest : List Char) (hc : ¬ (c = '$')) :
    ninjaExpand (c :: rest) = (ninjaExpand rest).map (fun r => c :: r) := by
  cases rest with
  | nil => simp [ninjaExpand, hc]
  | cons d t => simp [ninjaExpand, hc]

theorem ninjaExpand_dollar_dollar (rest : List Char) :
    ninjaExpand ('$' :: '$' :: rest) = (ninjaExpand rest).map (fun r => '$' :: r) := by
  simp [ninjaExpand]

theorem ninjaExpand_dollarEscape_append (a b : List Char) :
    ninjaExpand (dollarEscape a ++ b) = (ninjaExpand b).map (fun r => a ++ r) := by
  induction a with
  | nil =>
    simp only [dollarEscape, List.nil_append]
    cases ninjaExpand b <;> rfl
  | cons c t ih =>
    by_cases hc : c = '$'
    · subst hc
      have h1 : dollarEscape ('$' :: t) ++ b = '$' :: '$' :: (dollarEscape t ++ b) := by
        simp [dollarEscape]
      rw [h1, ninjaExpand_dollar_dollar, ih]
      cases ninjaExpand b <;> rfl
    · have h1 : dollarEscape (c :: t) ++ b = c :: (dollarEscape t ++ b) := by
        simp [dollarEscape, hc]
      rw [h1, ninjaExpand_cons_ne c _ hc, ih]
      cases ninjaExpand b <;> rfl

theorem shOutside_sq (rest : List Char) : shOutside (sqc :: rest) = shSingle rest := by
  simp only [shOutside, if_pos rfl, if_true]

theorem shOutside_dq (rest : List Char) : shOutside ('"' :: rest) = shDouble rest := by
  have h : ¬ (('"' : Char) = sqc) := by decide
  simp only [shOutside, if_neg h, if_pos rfl, if_true]

theorem shSingle_sq (rest : List Char) : shSingle (sqc :: rest) = shOutside rest := by
  simp only [shSingle, if_pos rfl, if_true]

theorem shSingle_other (c : Char) (rest : List Char) (h : ¬ (c = sqc)) :
    shSingle (c :: rest) = (shSingle rest).map (fun r => c :: r) := by
  simp only [shSingle, if_neg h]

theorem shDouble_dq (rest : List Char) : shDouble ('"' :: rest) = shOutside rest := by
  simp only [shDouble, if_pos rfl, if_true]

theorem shDouble_other (c : Char) (rest : List Char) (h : ¬ (c = '"')) :
    shDouble (c :: rest) = (shDouble rest).map (fun r => c :: r) := by
  simp only [shDouble, if_neg h]

theorem shSingle_sqEscape (s rest : List Char) :
    shSingle (sqEscape s ++ sqc :: rest) = (shOutside rest).map (fun r => s ++ r) := by
  induction s with
  | nil =>
    simp only [sqEscape, List.nil_append, shSingle_sq]
    cases shOutside rest <;> rfl
  | cons c t ih =>
    by_cases hs : c = sqc
    · subst hs
      have h1 : sqEscape (sqc :: t) ++ sqc :: rest
          = sqc :: '"' :: sqc :: '"' :: sqc :: (sqEscape t ++ sqc :: rest) := by
        simp [sqEscape]
      have hqd : ¬ (sqc = '"') := by decide
      rw [h1, shSingle_sq, shOutside_dq, shDouble_other _ _ hqd, shDouble_dq,
        shOutside_sq, ih]
      cases shOutside rest <;> rfl
    · have h1 : sqEscape (c :: t) ++ sqc :: rest = c :: (sqEscape t ++ sqc :: rest) := by
        simp [sqEscape, hs]
      rw [h1, shSingle_other c _ hs, ih]
      cases shOutside rest <;> rfl

/-- C4: materialization doubles every literal dollar in key and value and
then shell-quotes the whole `key = "value"` assignment as one token, in that
order; consequently, for every directive value containing the
variable-expansion sentinel `$`, variable-expanding and then
shell-unquoting the materialized line yields back the original
`key = "value"` string exactly. -/
theorem c4_escape_round_trip (k v : List Char) (_hv : '$' ∈ v) :
    materialize_line k v =
      shlex_quote (dollarEscape k ++ ' ' :: '=' :: ' ' :: '"' :: (dollarEscape v ++ ['"'])) ∧
    (ninjaExpand (materialize_line k v)).bind shOutside =
      some (k ++ ' ' :: '=' :: ' ' :: '"' :: (v ++ ['"'])) := by
  refine ⟨rfl, ?_⟩
  have horig :
      dollarEscape k ++ ' ' :: '=' :: ' ' :: '"' :: (dollarEscape v ++ ['"']) =
        dollarEscape (k ++ ' ' :: '=' :: ' ' :: '"' :: (v ++ ['"'])) := by
    rw [dollarEscape_append]
    have hmid : dollarEscape (' ' :: '=' :: ' ' :: '"' :: (v ++ ['"'])) =
        ' ' :: '=' :: ' ' :: '"' :: dollarEscape (v ++ ['"']) := by
      simp [dollarEscape]
    rw [hmid, dollarEscape_append]
    simp [dollarEscape]
  set orig : List Char := k ++ ' ' :: '=' :: ' ' :: '"' :: (v ++ ['"']) with horigdef
  have hmem : ' ' ∈ dollarEscape k ++ ' ' :: '=' :: ' ' :: '"' :: (dollarEscape v ++ ['"']) :=
    List.mem_append_right _ (List.mem_cons_self _ _)
  have hnonempty :
      ¬ (dollarEscape k ++ ' ' :: '=' :: ' ' :: '"' :: (dollarEscape v ++ ['"']) = []) := by
    intro h
    rw [h] at hmem
    exact List.not_mem_nil _ hmem
  have hunsafe :
      ¬ ((dollarEscape k ++ ' ' :: '=' :: ' ' :: '"' :: (dollarEscape v ++ ['"'])).all
        shlexSafeChar = true) := by
    intro hall
    have := List.all_eq_true.mp hall ' ' hmem
    simp [shlexSafeChar] at this
  have hquote : materialize_line k v = sqc :: (sqEscape (dollarEscape orig) ++ [sqc]) := by
    rw [materialize_line, shlex_quote, if_neg hnonempty, if_neg hunsafe, horig]
  rw [hquote, sqEscape_dollarEscape_comm]
  have hline : sqc :: (dollarEscape (sqEscape orig) ++ [sqc]) =
      dollarEscape (sqc :: sqEscape orig) ++ [sqc] := by
    have h : ¬ (sqc = '$') := by decide
    simp [dollarEscape, h]
  rw [hline, ninjaExpand_dollarEscape_append]
  have hexp1 : ninjaExpand [sqc] = some [sqc] := by decide
  rw [hexp1]
  show shOutside ((sqc :: sqEscape orig) ++ [sqc]) = some orig
  have hassoc : (sqc :: sqEscape orig) ++ [sqc] = sqc :: (sqEscape orig ++ sqc :: []) := by
    simp
  rw [hassoc, shOutside_sq, shSingle_sqEscape]
  have hnil : shOutside ([] : List Char) = some [] := rfl
  rw [hnil]
  simp

/-- Witness for C4: the round trip evaluated at the concrete key `F` and
value `a$b`, whose dollar-containing hypothesis is discharged by
evaluation. -/
theorem c4_escape_round_trip_witness :
    ('$' ∈ (['a', '$', 'b'] : List Char)) ∧
    (ninjaExpand (materialize_line ['F'] ['a', '$', 'b'])).bind shOutside =
      some (['F'] ++ ' ' :: '=' :: ' ' :: '"' :: (['a', '$', 'b'] ++ ['"'])) :=
  ⟨by decide, (c4_escape_round_trip ['F'] ['a', '$', 'b'] (by decide)).2⟩

/-- Embeds the Python check `b.startswith("/")` used by `os.path.join`. -/
def startsWithSlash (s : String) : Bool :=
  match s.data with
  | c :: _ => c = '/'
  | [] => false

/-- Embeds the Python check `a.endswith("/")` used by `os.path.join`. -/
def endsWithSlash (s : String) : Bool :=
  match s.data.getLast? with
  | some c => c = '/'
  | none => false

/-- Models the two-argument `os.path.join` (Python standard library, an
external collaborator): an absolute second component replaces the first,
otherwise the components are joined with a single separator. -/
def os_path_join2 (a b : String) : String :=
  if startsWithSlash b then b
  else if a.data = [] then b
  else if endsWithSlash a then a ++ b
  else a ++ "/" ++ b

/-- `os.path.join` with three components (left-associated). -/
def os_path_join3 (a b c : String) : String :=
  os_path_join2 (os_path_join2 a b) c

/-- `os.path.join` with four components (left-associated). -/
def os_path_join4 (a b c d : String) : String :=
  os_path_join2 (os_path_join3 a b c) d

/-- Models `os.path.abspath` (Python standard library, an external
collaborator) relative to an explicit process working directory `cwd`:
an already-absolute path is returned unchanged, a relative one is joined
to `cwd`; normalization of dot segments is not modelled. -/
def os_path_abspath (cwd path : String) : String :=
  if startsWithSlash path then path else os_path_join2 cwd path

/-- Modelled from the spec: `create_stamp_name` (from the repository's
utils module, which is not part of the analysed source) maps the given
path components to a synthetic stamp-file path; the spec (section 3)
requires only that the marker is a pure function of the components it is
given. -/
def create_stamp_name (parts : List String) : String :=
  String.intercalate "/" parts ++ ".stamp"

/-- Modelled from the spec: the Configuration Node accessors search a
mapping node's entries for a scalar key with the given name (section 6). -/
def lookupNode : List (YNode × YNode) → String → Option YNode
  | [], _ => none
  | (k, v) :: rest, key =>
    match k with
    | .scalar s _ => if s = key then some v else lookupNode rest key
    | _ => lookupNode rest key

/-- Modelled from the spec: `getString(node, key, default)` returns the
mapped scalar value, or the default when the key is absent (section 6). -/
def get_str_value (conf : List (YNode × YNode)) (key dflt : String) : String :=
  match lookupNode conf key with
  | some (.scalar s _) => s
  | _ => dflt

/-- Modelled from the spec: `getSequence(node, key)` returns the mapped
sequence node when present (section 6). -/
def get_sequence_node (conf : List (YNode × YNode)) (key : String) : Option YNode :=
  match lookupNode conf key with
  | some (.seq l m) => some (.seq l m)
  | _ => none

/-- Modelled from the spec: `getMapping(node, key)` returns the mapped
mapping node's entries when present (section 6). -/
def get_mapping_node (conf : List (YNode × YNode)) (key : String) :
    Option (List (YNode × YNode)) :=
  match lookupNode conf key with
  | some (.map m _) => some m
  | _ => none

/-- Modelled from the spec: `getMandatorySequence(node, key)` returns the
mapped sequence's elements or fails with a Missing Mandatory Field Error
naming the field (sections 6 and 7). -/
def get_mandatory_sequence (conf : List (YNode × YNode)) (key : String) :
    Except PyErr (List YNode) :=
  match lookupNode conf key with
  | some (.seq l _) => .ok l
  | _ => .error (.missingFieldError key)

/-- Modelled from the spec: `getMandatoryString(node, key)` returns the
mapped scalar value or fails with a Missing Mandatory Field Error naming
the field (sections 6 and 7). -/
def get_mandatory_str_value (conf : List (YNode × YNode)) (key : String) :
    Except PyErr String :=
  match lookupNode conf key with
  | some (.scalar s _) => .ok s
  | _ => .error (.missingFieldError key)

/-- The elements of a node known to be a sequence (its `.value`). -/
def YNode.seqVal : YNode → List YNode
  | .seq l _ => l
  | _ => []

/-- Generic embedding of a Python list comprehension over any element type:
elements are evaluated left to right, the first raised error aborts the
whole comprehension. -/
def mapE (f : α → Except PyErr β) : List α → Except PyErr (List β)
  | [] => .ok []
  | x :: rest =>
    match f x with
    | .error e => .error e
    | .ok b =>
      match mapE f rest with
      | .error e => .error e
      | .ok tail => .ok (b :: tail)

/-- Embeds the `YoctoBuilder` object state after `__init__`: the
configuration mapping's entries, the instance name, `yocto_dir` (the
`build_dir` argument), the computed `work_dir` and the source readiness
stamps. -/
structure YoctoBuilder where
  conf : List (YNode × YNode)
  name : String
  yocto_dir : String
  work_dir : String
  src_stamps : List String

/-- Embeds `YoctoBuilder.__init__`: stores the constructor arguments and
reads `work_dir` from the configuration with default `"build"`. -/
def mkYoctoBuilder (conf : List (YNode × YNode)) (name build_dir : String)
    (src_stamps : List String) : YoctoBuilder :=
  ⟨conf, name, build_dir, get_str_value conf "work_dir" "build", src_stamps⟩

/-- One build-edge declaration passed to the incremental graph writer:
output paths, rule name, input dependency paths, and the free-form
variable bindings (`vars`, the writer call's `variables` argument) in
their insertion order. -/
structure BuildEdge where
  outputs : List String
  rule : String
  inputs : List String
  vars : List (String × String)
deriving DecidableEq

/-- Embeds one iteration of the loop in `_get_external_src`: a sequence
value is joined from its path segments (joining an empty or non-string
segment list raises TypeError), any value is made absolute, and the
override key is the prefixed identifier. -/
def externalSrcItem (cwd : String) (kv : YNode × YNode) : Except PyErr (String × String) :=
  match kv with
  | (kn, .scalar s _) => .ok ("EXTERNALSRC_pn-" ++ kn.strVal, os_path_abspath cwd s)
  | (kn, .seq l _) =>
    match mapE strValE l with
    | .error e => .error e
    | .ok [] => .error .typeError
    | .ok (s :: rest) =>
      .ok ("EXTERNALSRC_pn-" ++ kn.strVal, os_path_abspath cwd (rest.foldl os_path_join2 s))
  | (_, .map _ _) => .error .typeError

/-- Embeds `YoctoBuilder._get_external_src` (the explicit `cwd` argument
stands for the process working directory that `os.path.abspath` uses):
one override entry per `external_src` mapping entry, in mapping order. -/
def _get_external_src (cwd : String) (b : YoctoBuilder) : Except PyErr (List (String × String)) :=
  match get_mapping_node b.conf "external_src" with
  | none => .ok []
  | some pairs => mapE (externalSrcItem cwd) pairs

/-- Embeds the f-string and `shlex.quote` of one directive line in
`gen_build` at the `String` level. -/
def materialize_str (k v : String) : String :=
  String.mk (materialize_line k.data v.data)

/-- Embeds the per-pair body of the `local_conf_lines` comprehension:
`.replace` on a non-string (a nested node list that survived flattening)
raises AttributeError, the key first. -/
def lineOf (p : YVal × YVal) : Except PyErr String :=
  match p.1 with
  | .s k =>
    match p.2 with
    | .s v => .ok (materialize_str k v)
    | _ => .error .attributeError
  | _ => .error .attributeError

/-- The common variable bindings of `gen_build`. -/
def common_variables (b : YoctoBuilder) : List (String × String) :=
  [("yocto_dir", b.yocto_dir), ("work_dir", b.work_dir)]

/-- Stage 1 output: `os.path.join(yocto_dir, work_dir, "conf", "local.conf")`. -/
def env_target (b : YoctoBuilder) : String :=
  os_path_join4 b.yocto_dir b.work_dir "conf" "local.conf"

/-- The stage 1 (environment init) edge emitted by `gen_build`. -/
def env_edge (b : YoctoBuilder) : BuildEdge :=
  ⟨[env_target b], "yocto_init_env", b.src_stamps, common_variables b⟩

/-- Embeds the `layers` computation of `gen_build`: the space-joined layer
names in declaration order, or the empty string when no `layers` key is
configured. -/
def layersParam (b : YoctoBuilder) : Except PyErr String :=
  match get_sequence_node b.conf "layers" with
  | some n =>
    match mapE strValE n.seqVal with
    | .error e => .error e
    | .ok names => .ok (String.intercalate " " names)
  | none => .ok ""

/-- Stage 2 output: `create_stamp_name(yocto_dir, work_dir, "yocto", "layers")`. -/
def layers_stamp (b : YoctoBuilder) : String :=
  create_stamp_name [b.yocto_dir, b.work_dir, "yocto", "layers"]

/-- The stage 2 (layer registration) edge emitted by `gen_build`. -/
def layers_edge (b : YoctoBuilder) (layers : String) : BuildEdge :=
  ⟨[layers_stamp b], "yocto_add_layers", [env_target b],
    common_variables b ++ [("layers", layers)]⟩

/-- Stage 3 output: `os.path.join(yocto_dir, work_dir, "conf", "moulin.conf")`. -/
def conf_target (b : YoctoBuilder) : String :=
  os_path_join4 b.yocto_dir b.work_dir "conf" "moulin.conf"

/-- Embeds the `local_conf` computation of `gen_build` before the override
merge: the flattened `conf` entries, or the empty list when no `conf` key
is configured. -/
def declaredConf (b : YoctoBuilder) : Except PyErr (List (YVal × YVal)) :=
  match get_sequence_node b.conf "conf" with
  | some n => _flatten_yocto_conf n.seqVal
  | none => .ok []

/-- Embeds `local_conf.extend(self._get_external_src())`: declared directive
entries first, then the external-source override entries. -/
def flattenedWithOverrides (cwd : String) (b : YoctoBuilder) :
    Except PyErr (List (YVal × YVal)) :=
  match declaredConf b with
  | .error e => .error e
  | .ok decl =>
    match _get_external_src cwd b with
    | .error e => .error e
    | .ok ext => .ok (decl ++ ext.map (fun p => (YVal.s p.1, YVal.s p.2)))

/-- Embeds the `local_conf_lines` comprehension of `gen_build`: each merged
pair doubled-and-quoted into one shell token. -/
def confLines (cwd : String) (b : YoctoBuilder) : Except PyErr (List String) :=
  match flattenedWithOverrides cwd b with
  | .error e => .error e
  | .ok all => mapE lineOf all

/-- The stage 3 (configuration materialization) edge emitted by
`gen_build`. -/
def conf_edge (b : YoctoBuilder) (lines : List String) : BuildEdge :=
  ⟨[conf_target b], "yocto_update_conf", [layers_stamp b],
    common_variables b ++ [("conf", String.intercalate " " lines)]⟩

/-- The zero-cost alias edge `conf-{name}` emitted right after stage 3. -/
def alias_edge (b : YoctoBuilder) : BuildEdge :=
  ⟨["conf-" ++ b.name], "phony", [conf_target b], []⟩

/-- Embeds the `targets` comprehension of `gen_build`: each mandatory
`target_images` entry joined against `{yocto_dir}/{work_dir}`. -/
def targetsOf (b : YoctoBuilder) : Except PyErr (List String) :=
  match get_mandatory_sequence b.conf "target_images" with
  | .error e => .error e
  | .ok ts =>
    mapE (fun t =>
      match strValE t with
      | .error e => .error e
      | .ok s => .ok (os_path_join3 b.yocto_dir b.work_dir s)) ts

/-- Embeds the `deps` comprehension of `gen_build` before
`deps.append(local_conf_target)`: each `additional_deps` entry joined
against `yocto_dir`, or the empty list when the key is absent. -/
def additionalDeps (b : YoctoBuilder) : Except PyErr (List String) :=
  match get_sequence_node b.conf "additional_deps" with
  | some n =>
    mapE (fun d =>
      match strValE d with
      | .error e => .error e
      | .ok s => .ok (os_path_join2 b.yocto_dir s)) n.seqVal
  | none => .ok []

/-- Embeds the mandatory `build_target` lookup of `gen_build`. -/
def buildTarget (b : YoctoBuilder) : Except PyErr String :=
  get_mandatory_str_value b.conf "build_target"

/-- The stage 4 (image build) edge emitted by `gen_build`: inputs are the
additional dependency paths followed by the appended stage 3 output. -/
def build_edge (b : YoctoBuilder) (targets adeps : List String) (bt : String) : BuildEdge :=
  ⟨targets, "yocto_build", adeps ++ [conf_target b],
    common_variables b ++ [("target", bt), ("name", b.name)]⟩

/-- Embeds `YoctoBuilder.gen_build`.  The graph writer is threaded through
explicitly as the list of already-emitted edges (`gen`); each
`generator.build` call appends one edge.  The nesting mirrors the source's
statement order: the stage 1 edge is emitted before the layers parameter is
computed, stages 1 and 2 before the directive lines are computed, and
stages 1-3 plus the alias before the mandatory `target_images` and
`build_target` lookups, so an error raised at any point leaves exactly the
already-written edges in the writer.  Returns the writer contents and the
returned target list (or the raised error). -/
def gen_build (cwd : String) (b : YoctoBuilder) (gen : List BuildEdge) :
    List BuildEdge × Except PyErr (List String) :=
  match layersParam b with
  | .error err => (gen ++ [env_edge b], .error err)
  | .ok layers =>
    match confLines cwd b with
    | .error err => (gen ++ [env_edge b, layers_edge b layers], .error err)
    | .ok lines =>
      match targetsOf b with
      | .error err =>
        (gen ++ [env_edge b, layers_edge b layers, conf_edge b lines, alias_edge b],
          .error err)
      | .ok targets =>
        match additionalDeps b with
        | .error err =>
          (gen ++ [env_edge b, layers_edge b layers, conf_edge b lines, alias_edge b],
            .error err)
        | .ok adeps =>
          match buildTarget b with
          | .error err =>
            (gen ++ [env_edge b, layers_edge b layers, conf_edge b lines, alias_edge b],
              .error err)
          | .ok bt =>
            (gen ++ [env_edge b, layers_edge b layers, conf_edge b lines, alias_edge b,
              build_edge b targets adeps bt], .ok targets)

theorem gen_build_ok (cwd : String) (b : YoctoBuilder) (gen : List BuildEdge)
    (ts : List String) (h : (gen_build cwd b gen).2 = .ok ts) :
    ∃ ls lines adeps bt,
      layersParam b = .ok ls ∧ confLines cwd b = .ok lines ∧ targetsOf b = .ok ts ∧
      additionalDeps b = .ok adeps ∧ buildTarget b = .ok bt ∧
      (gen_build cwd b gen).1 =
        gen ++ [env_edge b, layers_edge b ls, conf_edge b lines, alias_edge b,
          build_edge b ts adeps bt] := by
  cases h1 : layersParam b with
  | error e => unfold gen_build at h; rw [h1] at h; simp at h
  | ok ls =>
    cases h2 : confLines cwd b with
    | error e => unfold gen_build at h; rw [h1, h2] at h; simp at h
    | ok lines =>
      cases h3 : targetsOf b with
      | error e => unfold gen_build at h; rw [h1, h2, h3] at h; simp at h
      | ok targets =>
        cases h4 : additionalDeps b with
        | error e => unfold gen_build at h; rw [h1, h2, h3, h4] at h; simp at h
        | ok adeps =>
          cases h5 : buildTarget b with
          | error e => unfold gen_build at h; rw [h1, h2, h3, h4, h5] at h; simp at h
          | ok bt =>
            have hts : targets = ts := by
              unfold gen_build at h
              rw [h1, h2, h3, h4, h5] at h
              simpa using h
            subst hts
            refine ⟨ls, lines, adeps, bt, rfl, rfl, rfl, rfl, rfl, ?_⟩
            unfold gen_build
            rw [h1, h2, h3, h4, h5]

/-- The dependency-chain property asserted by the spec for one composed
instance: the writer gained exactly the five declarations (four stage edges
plus the alias, the alias being the only `phony` declaration), each stage's
inputs are exactly the previous stage's outputs (stage 1 takes the source
readiness stamps; stage 4 additionally takes the declared extra dependency
paths), and the returned list is stage 4's outputs. -/
def chain_conclusion (cwd : String) (b : YoctoBuilder) (gen : List BuildEdge)
    (ts : List String) : Prop :=
  ∃ ls lines adeps bt,
    additionalDeps b = .ok adeps ∧
    targetsOf b = .ok ts ∧
    (gen_build cwd b gen).1 =
      gen ++ [env_edge b, layers_edge b ls, conf_edge b lines, alias_edge b,
        build_edge b ts adeps bt] ∧
    ((gen_build cwd b gen).1.drop gen.length).filter (fun e => e.rule != "phony") =
      [env_edge b, layers_edge b ls, conf_edge b lines, build_edge b ts adeps bt] ∧
    (env_edge b).inputs = b.src_stamps ∧
    (layers_edge b ls).inputs = (env_edge b).outputs ∧
    (conf_edge b lines).inputs = (layers_edge b ls).outputs ∧
    (build_edge b ts adeps bt).inputs = adeps ++ (conf_edge b lines).outputs ∧
    (build_edge b ts adeps bt).outputs = ts

/-- C1: whenever `gen_build` returns successfully it has emitted exactly
four build edges forming a strict linear chain (plus the zero-cost alias):
stage 1's inputs are the source readiness stamps, each later stage's inputs
are exactly the previous stage's outputs (stage 4 also taking the declared
additional dependency paths), and the returned list is stage 4's output
path list (the target-image paths joined against the base and work
directories) unchanged. -/
theorem c1_dependency_chain (cwd : String) (b : YoctoBuilder) (gen : List BuildEdge)
    (ts : List String) (h : (gen_build cwd b gen).2 = .ok ts) :
    chain_conclusion cwd b gen ts := by
  obtain ⟨ls, lines, adeps, bt, h1, h2, h3, h4, h5, hedges⟩ := gen_build_ok cwd b gen ts h
  refine ⟨ls, lines, adeps, bt, h4, h3, hedges, ?_, rfl, rfl, rfl, rfl, rfl⟩
  rw [hedges, List.drop_left]
  rfl

/-- The configuration of the spec's Scenario A: one target image, a build
target, no layers, no conf entries, no external sources. -/
def confScenarioA : List (YNode × YNode) :=
  [(.scalar "target_images" 0, .seq [.scalar "image.wic" 1] 2),
   (.scalar "build_target" 3, .scalar "core-image-minimal" 4)]

/-- The Scenario A builder: name `a`, build directory `yocto`, one source
readiness stamp. -/
def builderA : YoctoBuilder := mkYoctoBuilder confScenarioA "a" "yocto" ["stamps/fetch"]

/-- Witness for C1: Scenario A composes successfully and the chain property
holds for it. -/
theorem c1_dependency_chain_witness :
    (gen_build "/cwd" builderA []).2 = .ok ["yocto/build/image.wic"] ∧
    chain_conclusion "/cwd" builderA [] ["yocto/build/image.wic"] :=
  ⟨rfl, c1_dependency_chain "/cwd" builderA [] ["yocto/build/image.wic"] rfl⟩

/-- C9: `gen_build` is deterministic and writer-state independent: a call
appends one batch of edge declarations that depends only on the instance
(and the modelled process working directory), and returns the same result,
whatever the writer already contains — hence two calls on the same instance
with the same configuration produce byte-identical edge declarations. -/
theorem c9_idempotent_composition (cwd : String) (b : YoctoBuilder)
    (gen₁ gen₂ : List BuildEdge) :
    ∃ batch r, gen_build cwd b gen₁ = (gen₁ ++ batch, r) ∧
      gen_build cwd b gen₂ = (gen₂ ++ batch, r) := by
  unfold gen_build
  cases layersParam b with
  | error e => exact ⟨_, _, rfl, rfl⟩
  | ok ls =>
    cases confLines cwd b with
    | error e => exact ⟨_, _, rfl, rfl⟩
    | ok lines =>
      cases targetsOf b with
      | error e => exact ⟨_, _, rfl, rfl⟩
      | ok targets =>
        cases additionalDeps b with
        | error e => exact ⟨_, _, rfl, rfl⟩
        | ok adeps =>
          cases buildTarget b with
          | error e => exact ⟨_, _, rfl, rfl⟩
          | ok bt => exact ⟨_, _, rfl, rfl⟩

theorem gen_build_take2 (cwd : String) (b : YoctoBuilder) (ls : String)
    (h : layersParam b = .ok ls) :
    ((gen_build cwd b []).1).take 2 = [env_edge b, layers_edge b ls] := by
  unfold gen_build
  rw [h]
  cases confLines cwd b with
  | error e => rfl
  | ok lines =>
    cases targetsOf b with
    | error e => rfl
    | ok targets =>
      cases additionalDeps b with
      | error e => rfl
      | ok adeps =>
        cases buildTarget b with
        | error e => rfl
        | ok bt => rfl

/-- C7: when no `layers` key is configured the stage 2 edge is still
emitted, with its layers parameter equal to the empty string (the stage is
never skipped); when layers are configured (as scalar names) the parameter
is the space-joined list of layer identifiers in declaration order. -/
theorem c7_layers_param (cwd : String) (b : YoctoBuilder) :
    (get_sequence_node b.conf "layers" = none →
      layersParam b = .ok "" ∧
      ((gen_build cwd b []).1).take 2 = [env_edge b, layers_edge b ""]) ∧
    (∀ l m names, get_sequence_node b.conf "layers" = some (.seq l m) →
      mapE strValE l = .ok names →
      layersParam b = .ok (String.intercalate " " names) ∧
      ((gen_build cwd b []).1).take 2 =
        [env_edge b, layers_edge b (String.intercalate " " names)]) := by
  constructor
  · intro h
    have hp : layersParam b = .ok "" := by
      unfold layersParam
      rw [h]
    exact ⟨hp, gen_build_take2 cwd b "" hp⟩
  · intro l m names hseq hmap
    have hp : layersParam b = .ok (String.intercalate " " names) := by
      unfold layersParam
      rw [hseq]
      simp only [YNode.seqVal]
      rw [hmap]
    exact ⟨hp, gen_build_take2 cwd b _ hp⟩

/-- A configuration with two declared layers, for the C7 witness. -/
def confLayers : List (YNode × YNode) :=
  [(.scalar "layers" 0, .seq [.scalar "meta-oe" 1, .scalar "meta-virt" 2] 3),
   (.scalar "target_images" 4, .seq [.scalar "image.wic" 5] 6),
   (.scalar "build_target" 7, .scalar "core-image-minimal" 8)]

/-- The builder over `confLayers`, for the C7 witness. -/
def builderL : YoctoBuilder := mkYoctoBuilder confLayers "l" "yocto" []

/-- Witness for C7: both parts applied at concrete builders — Scenario A
has no layers and gets the empty parameter, `builderL` gets the
space-joined declaration-order list. -/
theorem c7_layers_param_witness :
    (layersParam builderA = .ok "" ∧
      ((gen_build "/cwd" builderA []).1).take 2 = [env_edge builderA, layers_edge builderA ""]) ∧
    (layersParam builderL = .ok "meta-oe meta-virt" ∧
      ((gen_build "/cwd" builderL []).1).take 2 =
        [env_edge builderL, layers_edge builderL "meta-oe meta-virt"]) :=
  ⟨(c7_layers_param "/cwd" builderA).1 rfl,
   (c7_layers_param "/cwd" builderL).2
     [.scalar "meta-oe" 1, .scalar "meta-virt" 2] 3 ["meta-oe", "meta-virt"] rfl rfl⟩

/-- The configuration of the spec's Scenario D: `target_images` missing,
everything else present. -/
def confScenarioD : List (YNode × YNode) :=
  [(.scalar "build_target" 0, .scalar "core-image-minimal" 1)]

/-- The Scenario D builder. -/
def builderD : YoctoBuilder := mkYoctoBuilder confScenarioD "d" "yocto" []

/-- Counterexample to C3 as stated: with `target_images` missing,
`gen_build` does fail with the Missing Mandatory Field Error naming that
field, but four writer declarations (stages 1-3 and the conf alias) have
already been emitted for the instance — not zero. -/
theorem c3_counterexample_edges_before_error :
    (gen_build "/cwd" builderD []).2 = .error (.missingFieldError "target_images") ∧
    ((gen_build "/cwd" builderD []).1).length = 4 :=
  ⟨rfl, rfl⟩

/-- C3 (amended): composition is not atomic — edges are written in stage
order as `gen_build` runs, so when the mandatory `target_images` field is
missing (stages 1-3 having succeeded) it fails with a Missing Mandatory
Field Error naming that field, with the stage 1-3 edges and the conf alias
already emitted and only the final image-build edge withheld. -/
theorem c3_amended_missing_target_images (cwd : String) (b : YoctoBuilder)
    (gen : List BuildEdge) (ls : String) (lines : List String)
    (h1 : layersParam b = .ok ls) (h2 : confLines cwd b = .ok lines)
    (h3 : targetsOf b = .error (.missingFieldError "target_images")) :
    gen_build cwd b gen =
      (gen ++ [env_edge b, layers_edge b ls, conf_edge b lines, alias_edge b],
        .error (.missingFieldError "target_images")) := by
  unfold gen_build
  rw [h1, h2, h3]

/-- Witness for C3 (amended): applied at the Scenario D builder. -/
theorem c3_amended_missing_target_images_witness :
    layersParam builderD = .ok "" ∧
    confLines "/cwd" builderD = .ok [] ∧
    targetsOf builderD = .error (.missingFieldError "target_images") ∧
    gen_build "/cwd" builderD [] =
      ([env_edge builderD, layers_edge builderD "", conf_edge builderD [],
        alias_edge builderD], .error (.missingFieldError "target_images")) :=
  ⟨rfl, rfl, rfl,
    c3_amended_missing_target_images "/cwd" builderD [] "" [] rfl rfl rfl⟩

theorem startsWithSlash_append (a x : String) (h : startsWithSlash a = true) :
    startsWithSlash (a ++ x) = true := by
  unfold startsWithSlash at h ⊢
  rw [String.data_append]
  cases ha : a.data with
  | nil => rw [ha] at h; simp at h
  | cons c t => rw [ha] at h; simpa using h

theorem os_path_abspath_abs (cwd path : String) (h : startsWithSlash cwd = true) :
    startsWithSlash (os_path_abspath cwd path) = true := by
  unfold os_path_abspath
  by_cases hp : startsWithSlash path = true
  · rw [if_pos hp]; exact hp
  · rw [if_neg hp]
    unfold os_path_join2
    rw [if_neg hp]
    have hne : ¬ (cwd.data = []) := by
      intro hd
      unfold startsWithSlash at h
      rw [hd] at h
      cases h
    rw [if_neg hne]
    by_cases he : endsWithSlash cwd = true
    · rw [if_pos he]
      exact startsWithSlash_append _ _ h
    · rw [if_neg he]
      exact startsWithSlash_append _ _ (startsWithSlash_append _ _ h)

theorem externalSrcItem_shape (cwd : String) (kv : YNode × YNode) (p : String × String)
    (h : externalSrcItem cwd kv = .ok p) :
    p.1 = "EXTERNALSRC_pn-" ++ kv.1.strVal ∧
    (startsWithSlash cwd = true → startsWithSlash p.2 = true) := by
  obtain ⟨kn, vn⟩ := kv
  cases vn with
  | scalar s m =>
    simp only [externalSrcItem] at h
    injection h with hp
    subst hp
    exact ⟨rfl, fun hc => os_path_abspath_abs cwd s hc⟩
  | seq l m =>
    simp only [externalSrcItem] at h
    cases hml : mapE strValE l with
    | error e => rw [hml] at h; cases h
    | ok segs =>
      rw [hml] at h
      cases segs with
      | nil => cases h
      | cons s rest =>
        injection h with hp
        subst hp
        exact ⟨rfl, fun hc => os_path_abspath_abs cwd _ hc⟩
  | map mv mm =>
    simp only [externalSrcItem] at h
    cases h

theorem mapE_externalSrcItem_forall (cwd : String) (m : List (YNode × YNode))
    (ext : List (String × String)) (h : mapE (externalSrcItem cwd) m = .ok ext) :
    List.Forall₂ (fun (kv : YNode × YNode) (p : String × String) =>
      externalSrcItem cwd kv = .ok p ∧
      p.1 = "EXTERNALSRC_pn-" ++ kv.1.strVal ∧
      (startsWithSlash cwd = true → startsWithSlash p.2 = true)) m ext := by
  induction m generalizing ext with
  | nil =>
    unfold mapE at h
    injection h with hp
    subst hp
    exact List.Forall₂.nil
  | cons kv t ih =>
    unfold mapE at h
    cases hi : externalSrcItem cwd kv with
    | error e => rw [hi] at h; cases h
    | ok p =>
      rw [hi] at h
      cases ht : mapE (externalSrcItem cwd) t with
      | error e => rw [ht] at h; cases h
      | ok tl =>
        rw [ht] at h
        injection h with hp
        subst hp
        exact List.Forall₂.cons ⟨hi, externalSrcItem_shape cwd kv p hi⟩ (ih tl ht)

/-- C5: with an `external_src` mapping configured, the merged directive
list is exactly the declared (flattened) entries followed by the override
entries — overrides always last, in mapping declaration order — and each
mapping entry yields exactly one override whose key is
`EXTERNALSRC_pn-` plus the identifier and whose value is the resolved path,
absolute whenever the process working directory is absolute. -/
theorem c5_external_src_overrides (cwd : String) (b : YoctoBuilder)
    (m : List (YNode × YNode)) (decl : List (YVal × YVal)) (ext : List (String × String))
    (hm : get_mapping_node b.conf "external_src" = some m)
    (hd : declaredConf b = .ok decl)
    (he : _get_external_src cwd b = .ok ext) :
    flattenedWithOverrides cwd b =
      .ok (decl ++ ext.map (fun p => (YVal.s p.1, YVal.s p.2))) ∧
    List.Forall₂ (fun (kv : YNode × YNode) (p : String × String) =>
      externalSrcItem cwd kv = .ok p ∧
      p.1 = "EXTERNALSRC_pn-" ++ kv.1.strVal ∧
      (startsWithSlash cwd = true → startsWithSlash p.2 = true)) m ext := by
  constructor
  · unfold flattenedWithOverrides
    rw [hd, he]
  · have hmap : mapE (externalSrcItem cwd) m = .ok ext := by
      unfold _get_external_src at he
      rw [hm] at he
      exact he
    exact mapE_externalSrcItem_forall cwd m ext hmap

/-- The configuration of the spec's Scenario C: one declared conf pair plus
an `external_src` mapping `mylib -> ["srcs", "mylib"]`. -/
def confScenarioC : List (YNode × YNode) :=
  [(.scalar "conf" 0, .seq [.seq [.scalar "FOO" 1, .scalar "1" 2] 3] 4),
   (.scalar "external_src" 5,
     .map [(.scalar "mylib" 6, .seq [.scalar "srcs" 7, .scalar "mylib" 8] 9)] 10),
   (.scalar "target_images" 11, .seq [.scalar "image.wic" 12] 13),
   (.scalar "build_target" 14, .scalar "core-image-minimal" 15)]

/-- The Scenario C builder. -/
def builderC : YoctoBuilder := mkYoctoBuilder confScenarioC "c" "yocto" []

/-- Witness for C5: Scenario C evaluated concretely — the override entry
`("EXTERNALSRC_pn-mylib", "/cwd/srcs/mylib")` is appended after the
declared `("FOO", "1")` entry. -/
theorem c5_external_src_overrides_witness :
    get_mapping_node builderC.conf "external_src" =
      some [(.scalar "mylib" 6, .seq [.scalar "srcs" 7, .scalar "mylib" 8] 9)] ∧
    declaredConf builderC = .ok [(.s "FOO", .s "1")] ∧
    _get_external_src "/cwd" builderC = .ok [("EXTERNALSRC_pn-mylib", "/cwd/srcs/mylib")] ∧
    (flattenedWithOverrides "/cwd" builderC =
      .ok ([(.s "FOO", .s "1")] ++
        [("EXTERNALSRC_pn-mylib", "/cwd/srcs/mylib")].map
          (fun p => (YVal.s p.1, YVal.s p.2))) ∧
    List.Forall₂ (fun (kv : YNode × YNode) (p : String × String) =>
      externalSrcItem "/cwd" kv = .ok p ∧
      p.1 = "EXTERNALSRC_pn-" ++ kv.1.strVal ∧
      (startsWithSlash "/cwd" = true → startsWithSlash p.2 = true))
      [(.scalar "mylib" 6, .seq [.scalar "srcs" 7, .scalar "mylib" 8] 9)]
      [("EXTERNALSRC_pn-mylib", "/cwd/srcs/mylib")]) :=
  ⟨rfl, rfl, rfl,
    c5_external_src_overrides "/cwd" builderC
      [(.scalar "mylib" 6, .seq [.scalar "srcs" 7, .scalar "mylib" 8] 9)]
      [(.s "FOO", .s "1")] [("EXTERNALSRC_pn-mylib", "/cwd/srcs/mylib")] rfl rfl rfl⟩

/-- Two distinct-name builders sharing base and work directories, for C6. -/
def builderAlpha : YoctoBuilder := mkYoctoBuilder confScenarioA "alpha" "yocto" []

/-- See `builderAlpha`. -/
def builderBeta : YoctoBuilder := mkYoctoBuilder confScenarioA "beta" "yocto" []

/-- Counterexample to C6 as stated: two Build Instances with different
names but the same base and work directories receive identical stage
marker paths — the marker is not a function of the instance name, and
markers of distinct instances do collide. -/
theorem c6_counterexample_name_not_in_marker :
    builderAlpha.name ≠ builderBeta.name ∧
    layers_stamp builderAlpha = layers_stamp builderBeta ∧
    env_target builderAlpha = env_target builderBeta ∧
    conf_target builderAlpha = conf_target builderBeta :=
  ⟨by decide, rfl, rfl, rfl⟩

/-- C6 (amended): each stage's marker path is a function of the base
directory and the work subdirectory (plus the fixed stage tag) only — the
instance name never enters a marker — so markers of two instances coincide
exactly when those directories do, and instances with distinct base/work
directories cannot collide only because their directories differ. -/
theorem c6_amended_markers_function_of_dirs (b1 b2 : YoctoBuilder)
    (hy : b1.yocto_dir = b2.yocto_dir) (hw : b1.work_dir = b2.work_dir) :
    env_target b1 = env_target b2 ∧
    layers_stamp b1 = layers_stamp b2 ∧
    conf_target b1 = conf_target b2 := by
  unfold env_target layers_stamp conf_target
  rw [hy, hw]
  exact ⟨rfl, rfl, rfl⟩

/-- Witness for C6 (amended): applied at the two concrete same-directory
builders. -/
theorem c6_amended_markers_function_of_dirs_witness :
    builderAlpha.yocto_dir = builderBeta.yocto_dir ∧
    builderAlpha.work_dir = builderBeta.work_dir ∧
    (env_target builderAlpha = env_target builderBeta ∧
      layers_stamp builderAlpha = layers_stamp builderBeta ∧
      conf_target builderAlpha = conf_target builderBeta) :=
  ⟨rfl, rfl, c6_amended_markers_function_of_dirs builderAlpha builderBeta rfl rfl⟩
